import Mathlib

/-!
Verification development for the pulumi planning-core fragment:
the provider registry / meta-provider (`providers.go` material) and the
step generator (`pkg/resource/deploy/step_generator.go`), shallowly
embedded as executable Lean definitions, with theorems settling the
specification's testable properties.
-/

namespace Pulumi

/-- Property values of a `resource.PropertyMap`: strings, numbers, booleans,
nested values are irrelevant to the verified code paths, and the
computed/unknown marker. Modelled from the spec: tagged values with deep
structural equality for change detection. -/
inductive PropertyValue where
  | str : String → PropertyValue
  | num : Int → PropertyValue
  | boolean : Bool → PropertyValue
  | computed : PropertyValue
  deriving DecidableEq, Repr

/-- `resource.PropertyMap`, modelled as an association list in canonical
(iteration) order. Deep equality is structural equality of this list. -/
abbrev PropertyMap := List (String × PropertyValue)

/-- Association-list lookup, the model of `properties[k]`. -/
def lookupProp (m : PropertyMap) (k : String) : Option PropertyValue :=
  match m with
  | [] => Option.none
  | (k', v) :: rest => if k' = k then Option.some v else lookupProp rest k

/-- `PropertyValue.IsString`. -/
def PropertyValue.IsString : PropertyValue → Bool
  | .str _ => true
  | _ => false

/-- `PropertyValue.IsComputed`. -/
def PropertyValue.IsComputed : PropertyValue → Bool
  | .computed => true
  | _ => false

/-- `PropertyValue.StringValue`; total in the model, returning `""` off the
string case (the source only calls it after an `IsString` guard). -/
def PropertyValue.StringValue : PropertyValue → String
  | .str s => s
  | _ => ""

/-- `resource.URN`. Modelled from the spec: deterministically derived from
target/stack name, source-project name, qualified parent type, resource
type token, and resource name; represented by those five components. -/
structure URN where
  stack : String
  project : String
  parentType : String
  type : String
  name : String
  deriving DecidableEq, Repr

/-- `resource.NewURN`. Modelled from the spec: the deterministic URN
constructor over the five components. -/
def NewURN (stack project parentType ty name : String) : URN :=
  ⟨stack, project, parentType, ty, name⟩

/-- The textual rendering of a URN (used only inside error messages). -/
def URN.render (u : URN) : String :=
  "urn:pulumi:" ++ u.stack ++ "::" ++ u.project ++ "::" ++
    (if u.parentType = "" then u.type else u.parentType ++ "$" ++ u.type) ++
    "::" ++ u.name

/-- The qualified type of a URN, `URN.QualifiedType`. Modelled from the
spec: the parent-qualified resource type token of the URN. -/
def URN.qualifiedType (u : URN) : String :=
  if u.parentType = "" then u.type else u.parentType ++ "$" ++ u.type

/-- Split a character list on a separator (the groups between separator
occurrences, in order). -/
def splitChars (sep : Char) : List Char → List (List Char)
  | [] => [[]]
  | c :: rest =>
      let r := splitChars sep rest
      if c = sep then [] :: r
      else
        match r with
        | [] => [[c]]
        | g :: gs => (c :: g) :: gs

/-- `tokens.Type.Name()`: the last `:`-separated component of a type token. -/
def typeName (t : String) : String :=
  String.mk ((splitChars ':' t.data).getLastD [])

/-- `tokens.Type.Package()`: the first `:`-separated component of a type
token. -/
def typePackage (t : String) : String :=
  String.mk ((splitChars ':' t.data).headD [])

/-- The root stack type, `resource.RootStackType`. -/
def rootStackType : String := "pulumi:pulumi:Stack"

/-- `plugin.CheckFailure`: offending property (empty = whole resource) and
a reason string. -/
structure CheckFailure where
  property : String
  reason : String
  deriving DecidableEq, Repr

/-- `workspace.PluginInfo`, reduced to the metadata the verified paths
observe. -/
structure PluginInfo where
  name : String
  version : String
  deriving DecidableEq, Repr

/-- A provider configuration key, `config.Key`: a (namespace, name) pair as
produced by `config.MustMakeKey`. -/
abbrev ConfigKey := String × String

/-- `config.MustMakeKey`. -/
def MustMakeKey (namespc nm : String) : ConfigKey := (namespc, nm)

/-- A semantic version. Modelled from the spec: the external
semantic-versioning parser library is a third-party dependency; only the
major/minor/patch triple is observed here. -/
structure SemVer where
  major : Nat
  minor : Nat
  patch : Nat
  deriving DecidableEq, Repr

/-- Decimal value of a digit character list, accumulated left to right. -/
def natOfDigits : List Char → Nat → Nat
  | [], acc => acc
  | c :: rest, acc => natOfDigits rest (acc * 10 + (c.toNat - 48))

/-- A single numeric component of a version string: nonempty and all
digits. -/
def parseVersionComponent (l : List Char) : Except String Nat :=
  if l = [] then Except.error ("empty version component")
  else if l.all (fun c => decide (48 ≤ c.toNat) && decide (c.toNat ≤ 57)) then
    Except.ok (natOfDigits l 0)
  else Except.error ("invalid character in version component " ++ String.mk l)

/-- Modelled from the spec: the external tolerant semantic-version parser
(`semver.ParseTolerant`, a third-party library not part of this
repository). It accepts forms slightly looser than strict semver — a
leading `v` and missing minor/patch components — returning a parsed
version or a parse-error message. -/
def parseTolerant (s : String) : Except String SemVer :=
  let l :=
    match s.data with
    | 'v' :: rest => rest
    | other => other
  match splitChars '.' l with
  | [a] =>
      match parseVersionComponent a with
      | Except.error e => Except.error e
      | Except.ok ma => Except.ok ⟨ma, 0, 0⟩
  | [a, b] =>
      match parseVersionComponent a, parseVersionComponent b with
      | Except.ok ma, Except.ok mi => Except.ok ⟨ma, mi, 0⟩
      | Except.error e, _ => Except.error e
      | _, Except.error e => Except.error e
  | [a, b, c] =>
      match parseVersionComponent a, parseVersionComponent b, parseVersionComponent c with
      | Except.ok ma, Except.ok mi, Except.ok pa => Except.ok ⟨ma, mi, pa⟩
      | Except.error e, _, _ => Except.error e
      | _, Except.error e, _ => Except.error e
      | _, _, Except.error e => Except.error e
  | _ => Except.error ("invalid version string " ++ s)

/-- A loaded provider handle as observed by the registry: either a real,
configured plugin handle (identified by the host-assigned handle id and
package) or a shim. -/
structure ShimProvider where
  pkg : String
  info : PluginInfo
  deriving DecidableEq, Repr

/-- A provider handle storable in the registry's table. -/
inductive Provider where
  | real : Nat → String → Provider
  | shim : ShimProvider → Provider
  deriving DecidableEq, Repr

/-- The outcome of a provider operation guarded by `contract.Fail()`:
`fatal` models the assertion firing together with the error value the Go
code constructs alongside it. -/
inductive OpResult (α : Type) where
  | ok : α → OpResult α
  | fatal : String → OpResult α
  deriving DecidableEq, Repr

/-- `shimProvider.GetPluginInfo`: returns the captured metadata, no error. -/
def ShimProvider.GetPluginInfo (p : ShimProvider) : Except String PluginInfo :=
  Except.ok p.info

/-- `shimProvider.Create`: `contract.Fail()` plus a CRUD error. -/
def ShimProvider.Create (p : ShimProvider) (urn : URN) (news : PropertyMap) :
    OpResult (String × PropertyMap) :=
  OpResult.fatal "the shimProvider cannot perform CRUD operations"

/-- `shimProvider.Update`: `contract.Fail()` plus a CRUD error. -/
def ShimProvider.Update (p : ShimProvider) (urn : URN) (id : String)
    (olds news : PropertyMap) : OpResult PropertyMap :=
  OpResult.fatal "the shimProvider cannot perform CRUD operations"

/-- `shimProvider.Delete`: `contract.Fail()` plus a CRUD error. -/
def ShimProvider.Delete (p : ShimProvider) (urn : URN) (id : String)
    (props : PropertyMap) : OpResult Unit :=
  OpResult.fatal "the shimProvider cannot perform CRUD operations"

/-- A real plugin handle as produced by the plugin host, before
configuration: its handle id, its `GetPluginInfo` behaviour and its
`Configure` behaviour (`Option.some` an error message means failure). -/
structure HostProvider where
  id : Nat
  getPluginInfo : Except String PluginInfo
  configure : List (ConfigKey × String) → Option String

/-- The plugin host boundary: `host.Provider(pkg, version)` resolves a
plugin or fails. Closing a provider has no observable effect in this
model (close errors are logged and swallowed by the source). -/
structure Host where
  provider : String → Option SemVer → Except String HostProvider

/-- The `(provider, failures, error)` triple returned by `loadProvider`
and forwarded as the registry's `providerLoadResponse`. -/
structure LoadResult where
  provider : Option Provider
  failures : List CheckFailure
  err : Option String
  deriving DecidableEq, Repr

/-- The version-extraction block of `loadProvider` (the `"version"`
property must be a string that parses tolerantly; on a parse failure the
version variable still holds the zero value). Returns the accumulated
failures and the version. -/
def checkVersion (properties : PropertyMap) : List CheckFailure × Option SemVer :=
  match lookupProp properties "version" with
  | Option.none => ([], Option.none)
  | Option.some (PropertyValue.str s) =>
      match parseTolerant s with
      | Except.ok sv => ([], Option.some sv)
      | Except.error e =>
          ([⟨"version", "could not parse provider version: " ++ e⟩], Option.some ⟨0, 0, 0⟩)
  | Option.some _ => ([⟨"version", "'version' must be a string"⟩], Option.none)

/-- The configuration-conversion loop of `loadProvider`: skips
`"version"`, flags unknowns (failure when disallowed, shim when allowed),
keys strings by `(resource-type-name, property-name)`, and rejects other
values. Returns `(useShim, cfg, failures)` in iteration order. -/
def convertConfig (tn : String) (allowUnknowns : Bool) :
    PropertyMap → Bool × List (ConfigKey × String) × List CheckFailure
  | [] => (false, [], [])
  | (k, v) :: rest =>
      let r := convertConfig tn allowUnknowns rest
      if k = "version" then r
      else if v.IsComputed then
        if allowUnknowns then (true, r.2.1, r.2.2)
        else (r.1, r.2.1, ⟨k, "provider properties must not be unknown"⟩ :: r.2.2)
      else if v.IsString then
        (r.1, (MustMakeKey tn k, v.StringValue) :: r.2.1, r.2.2)
      else
        (r.1, r.2.1, ⟨k, "provider property values must be strings"⟩ :: r.2.2)

/-- `loadProviderRaw`: resolve the plugin from the host and configure it;
a `Configure` failure discards the loaded plugin (the close error is
logged and swallowed) and is returned as a hard error. -/
def loadProviderRaw (host : Host) (pkg : String) (version : Option SemVer)
    (cfg : List (ConfigKey × String)) : Except String Provider :=
  match host.provider pkg version with
  | Except.error e => Except.error e
  | Except.ok hp =>
      match hp.configure cfg with
      | Option.some e => Except.error e
      | Option.none => Except.ok (Provider.real hp.id pkg)

/-- `loadProvider`: extract the version, convert the configuration, stop
with the accumulated validation failures if any, then either load and
configure the real plugin, or (when an unknown marked the load for the
shim) capture the real plugin's metadata and return a shim provider. -/
def loadProvider (host : Host) (urn : URN) (properties : PropertyMap)
    (allowUnknowns : Bool) : LoadResult :=
  let v := checkVersion properties
  let c := convertConfig (typeName urn.type) allowUnknowns properties
  let failures := v.1 ++ c.2.2
  if failures = [] then
    let pkg := typeName urn.type
    if ¬c.1 then
      match loadProviderRaw host pkg v.2 c.2.1 with
      | Except.error e => ⟨Option.none, [], Option.some e⟩
      | Except.ok p => ⟨Option.some p, [], Option.none⟩
    else
      match host.provider pkg v.2 with
      | Except.error e => ⟨Option.none, [], Option.some e⟩
      | Except.ok hp =>
          match hp.getPluginInfo with
          | Except.error e => ⟨Option.none, [], Option.some e⟩
          | Except.ok info => ⟨Option.some (Provider.shim ⟨pkg, info⟩), [], Option.none⟩
  else ⟨Option.none, failures, Option.none⟩

/-- `ErrMissingProvider`. -/
def errMissingProvider : String := "provider not found"

/-- A `providerRecord`: the configuration properties the provider was
loaded with and the handle. -/
structure ProviderRecord where
  properties : PropertyMap
  provider : Option Provider
  deriving DecidableEq, Repr

/-- The provider loader's handle table, `providerLoader.providers`. -/
abbrev ProviderTable := List (URN × ProviderRecord)

/-- Table lookup, the model of `p.providers[req.urn]`. -/
def lookupTable (t : ProviderTable) (u : URN) : Option ProviderRecord :=
  match t with
  | [] => Option.none
  | (u', r) :: rest => if u' = u then Option.some r else lookupTable rest u

/-- Table insertion, the model of `p.providers[req.urn] = record` (only
performed when the URN is absent, per the serve loop's assertion). -/
def insertTable (t : ProviderTable) (u : URN) (r : ProviderRecord) : ProviderTable :=
  (u, r) :: t

/-- A `providerLoadRequest`: `Option.none` properties is the nil map that
selects the lookup path. -/
structure LoadRequest where
  urn : URN
  properties : Option PropertyMap
  allowUnknowns : Bool

/-- One iteration of `providerLoader.serve` on one request: nil properties
is a lookup (`NotFound` when absent, the cached handle otherwise); real
properties is a load, whose `contract.Assert(!ok)` is modelled by
returning `Option.none` when a record already exists; a load result is
cached only when it has no failures and no error. -/
def serveStep (host : Host) (table : ProviderTable) (req : LoadRequest) :
    Option (ProviderTable × LoadResult) :=
  match req.properties with
  | Option.none =>
      match lookupTable table req.urn with
      | Option.none => Option.some (table, ⟨Option.none, [], Option.some errMissingProvider⟩)
      | Option.some record => Option.some (table, ⟨record.provider, [], Option.none⟩)
  | Option.some props =>
      match lookupTable table req.urn with
      | Option.some _ => Option.none
      | Option.none =>
          let r := loadProvider host req.urn props req.allowUnknowns
          if r.failures = [] ∧ r.err = Option.none then
            Option.some (insertTable table req.urn ⟨props, r.provider⟩, r)
          else Option.some (table, r)

/-- `providerLoader.serve` over a whole request queue, returning the final
table (`Option.none` if an assertion fired). -/
def serveAll (host : Host) (table : ProviderTable) : List LoadRequest → Option ProviderTable
  | [] => Option.some table
  | req :: rest =>
      match serveStep host table req with
      | Option.none => Option.none
      | Option.some (table', _) => serveAll host table' rest

/-- `metaProvider.getProvider`: a lookup request for the URN with nil
configuration, served against the current table. -/
def getProvider (host : Host) (table : ProviderTable) (urn : URN) :
    Option (ProviderTable × LoadResult) :=
  serveStep host table ⟨urn, Option.none, false⟩

/-- `resource.State`: the persisted record the step generator constructs
and the snapshot stores. -/
structure ResState where
  type : String
  urn : URN
  custom : Bool
  delete : Bool
  id : String
  inputs : PropertyMap
  outputs : PropertyMap
  parent : Option URN
  protect : Bool
  dependencies : List URN
  excluded : List String
  deriving DecidableEq, Repr

/-- `resource.NewState`. -/
def NewState (ty : String) (urn : URN) (custom del : Bool) (id : String)
    (inputs outputs : PropertyMap) (parent : Option URN) (protect : Bool)
    (dependencies : List URN) (excluded : List String) : ResState :=
  ⟨ty, urn, custom, del, id, inputs, outputs, parent, protect, dependencies, excluded⟩

/-- `resource.Goal`: the desired state declared by the program. -/
structure Goal where
  type : String
  name : String
  custom : Bool
  properties : PropertyMap
  parent : Option URN
  protect : Bool
  dependencies : List URN
  deriving DecidableEq, Repr

/-- A planned `Step`, carrying the constructor arguments the source passes
(the plan and event references carry no step-distinguishing data). -/
inductive Step where
  | same : ResState → ResState → Step
  | create : ResState → Step
  | createReplacement : ResState → ResState → List String → Bool → Step
  | replace : ResState → ResState → List String → Bool → Step
  | update : ResState → ResState → List String → Step
  | delete : ResState → Step
  | deleteReplacement : ResState → Bool → Step
  deriving DecidableEq, Repr

/-- `plugin.DiffUnknown`. The change indicator is an integer enum. -/
def diffUnknown : Nat := 0

/-- `plugin.DiffNone`. -/
def diffNone : Nat := 1

/-- `plugin.DiffSome`. -/
def diffSome : Nat := 2

/-- `plugin.DiffResult`. -/
structure DiffResult where
  changes : Nat
  replaceKeys : List String
  stableKeys : List String
  deleteBeforeReplace : Bool
  deriving DecidableEq, Repr

/-- Modelled from the spec: `DiffResult.Replace()`, the derived
replace-required decision — replacement is required exactly when some key
forced it. -/
def DiffResult.Replace (d : DiffResult) : Bool :=
  !d.replaceKeys.isEmpty

/-- A provider as consulted by the step generator: its `Check` behaviour
(returning checked inputs, failures and an error) and its `Diff`
behaviour. -/
structure PlanProvider where
  check : URN → Option PropertyMap → PropertyMap → Bool →
    PropertyMap × List CheckFailure × Option String
  diff : URN → String → PropertyMap → PropertyMap → Bool → Except String DiffResult

/-- `plugin.AnalyzeFailure`. -/
structure AnalyzeFailure where
  property : String
  reason : String
  deriving DecidableEq, Repr

/-- An analyzer plugin: `Analyze(type, props)` returning failures and an
error. -/
structure Analyzer where
  analyze : String → PropertyMap → List AnalyzeFailure × Option String

/-- The `Plan` boundary collaborator as the step generator consumes it:
previous-state lookup, previous snapshot resource list (`Option.none`
models a nil previous snapshot), modes, analyzer names, the dependency
graph's `DependingOn`, target and project names, and provider lookup
(`plan.Provider(pkg)` returning a possibly-nil provider and an error). -/
structure Plan where
  olds : List (URN × ResState)
  prevResources : Option (List ResState)
  isRefresh : Bool
  preview : Bool
  analyzers : List String
  dependingOn : ResState → List ResState
  target : String
  project : String
  provider : String → Option PlanProvider × Option String

/-- The plugin-host boundary as the step generator consumes it:
`Host.Analyzer(name)` returning a possibly-nil analyzer and an error. -/
structure StepHost where
  analyzer : String → Option Analyzer × Option String

/-- The step generator's per-plan mutable state: the URN set and the five
disposition sets, as lists with set semantics. -/
structure StepGenState where
  urns : List URN
  deletes : List URN
  replaces : List URN
  updates : List URN
  creates : List URN
  sames : List URN
  deriving DecidableEq, Repr

/-- `newStepGenerator`: all sets empty. -/
def newStepGenerator : StepGenState := ⟨[], [], [], [], [], []⟩

/-- Set insertion for the URN sets (`m[u] = true`). -/
def insertURN (u : URN) (l : List URN) : List URN :=
  if u ∈ l then l else u :: l

/-- Set removal for the URN sets (`delete(m, u)`). -/
def removeURN (u : URN) (l : List URN) : List URN :=
  l.filter (fun x => decide (x ≠ u))

/-- Association lookup into `plan.Olds()`. -/
def lookupState (olds : List (URN × ResState)) (u : URN) : Option ResState :=
  match olds with
  | [] => Option.none
  | (u', r) :: rest => if u' = u then Option.some r else lookupState rest u

/-- `stepGenerator.generateURN`: empty parent type when there is no parent
or the parent is the root stack; otherwise the parent's qualified type. -/
def generateURN (plan : Plan) (goal : Goal) : URN :=
  let parentType :=
    match goal.parent with
    | Option.none => ""
    | Option.some p => if p.type = rootStackType then "" else p.qualifiedType
  NewURN plan.target plan.project parentType goal.type goal.name

/-- `stepGenerator.getResourcePropertyStates`: refresh carries old inputs
over and sets outputs to the goal's properties; otherwise inputs are the
goal's properties and outputs stay empty. Returns
`(props, inputs, outputs, new state)`. -/
def getResourcePropertyStates (plan : Plan) (urn : URN) (goal : Goal) :
    PropertyMap × PropertyMap × PropertyMap × ResState :=
  let props := goal.properties
  let inputs : PropertyMap :=
    if plan.isRefresh then
      match lookupState plan.olds urn with
      | Option.some old => old.inputs
      | Option.none => []
    else props
  let outputs : PropertyMap := if plan.isRefresh then props else []
  (props, inputs, outputs,
    NewState goal.type urn goal.custom false "" inputs outputs goal.parent goal.protect
      goal.dependencies [])

/-- The legacy short-circuit of `stepGenerator.diff`: deep equality of old
vs new outputs under refresh, old vs new inputs otherwise. -/
def sgHasChanges (refresh : Bool) (oldInputs oldOutputs newInputs newOutputs : PropertyMap) :
    Bool :=
  if refresh then decide (¬oldOutputs = newOutputs) else decide (¬oldInputs = newInputs)

/-- `stepGenerator.diff`: the legacy equality short-circuit gives "no
change"; a missing provider gives "some change" unconditionally; otherwise
the provider's Diff is consulted and an "unknown" result is normalized to
"some change". -/
def sgDiff (urn : URN) (id : String)
    (oldInputs oldOutputs newInputs newOutputs newProps : PropertyMap)
    (prov : Option PlanProvider) (refresh allowUnknowns : Bool) :
    Except String DiffResult :=
  if sgHasChanges refresh oldInputs oldOutputs newInputs newOutputs then
    match prov with
    | Option.none => Except.ok ⟨diffSome, [], [], false⟩
    | Option.some p =>
        match p.diff urn id oldOutputs newProps allowUnknowns with
        | Except.error e => Except.error e
        | Except.ok d =>
            if d.changes = diffUnknown then Except.ok { d with changes := diffSome }
            else Except.ok d
  else Except.ok ⟨diffNone, [], [], false⟩

/-- The duplicate-URN diagnostic. Modelled from the spec: diagnostic
message bodies live in the `diag` package outside this fragment. -/
def dupURNDiag (urn : URN) : String :=
  "duplicate resource URN " ++ urn.render

/-- A check-failure diagnostic (per-property or whole-resource). Modelled
from the spec: references type, name, offending property and reason. -/
def checkFailureDiag (st : ResState) (urn : URN) (f : CheckFailure) : String :=
  if f.property = "" then
    "resource invalid: " ++ st.type ++ " " ++ urn.name ++ ": " ++ f.reason
  else
    "resource property invalid value: " ++ st.type ++ " " ++ urn.name ++ "." ++
      f.property ++ ": " ++ f.reason

/-- `stepGenerator.issueCheckErrors`: formats every failure into the
diagnostics sink, reporting whether there were any. -/
def issueCheckErrors (st : ResState) (urn : URN) (failures : List CheckFailure) :
    Bool × List String :=
  if failures = [] then (false, [])
  else (true, failures.map (checkFailureDiag st urn))

/-- An analyzer-failure diagnostic. Modelled from the spec: references the
analyzer, URN, property and reason. -/
def analyzeFailureDiag (a : String) (urn : URN) (f : AnalyzeFailure) : String :=
  "analyze resource failure: " ++ a ++ " " ++ urn.render ++ " " ++ f.property ++ ": " ++
    f.reason

/-- The analyzer loop of `GenerateSteps`: resolution failure or a nil
analyzer is a hard error; every analysis failure becomes a diagnostic and
marks the registration invalid. -/
def runAnalyzers (host : StepHost) (urn : URN) (ty : String) (props : PropertyMap) :
    List String → Except String (Bool × List String)
  | [] => Except.ok (false, [])
  | a :: rest =>
      match host.analyzer a with
      | (_, Option.some e) => Except.error e
      | (Option.none, Option.none) =>
          Except.error ("analyzer '" ++ a ++ "' could not be loaded from your $PATH")
      | (Option.some an, Option.none) =>
          let r := an.analyze ty props
          match r.2 with
          | Option.some e => Except.error e
          | Option.none =>
              match runAnalyzers host urn ty props rest with
              | Except.error e => Except.error e
              | Except.ok rs =>
                  Except.ok (rs.1 || !r.1.isEmpty,
                    (r.1.map (analyzeFailureDiag a urn)) ++ rs.2)

/-- `stepGenerator.provider`: resolve via `plan.Provider(pkg)`; an error
or a nil provider is a hard error naming the package. -/
def sgProvider (plan : Plan) (t : String) : Except String PlanProvider :=
  let pkg := typePackage t
  match plan.provider pkg with
  | (_, Option.some e) => Except.error e
  | (Option.none, Option.none) =>
      Except.error ("could not load resource provider for package '" ++ pkg ++ "' from $PATH")
  | (Option.some p, Option.none) => Except.ok p

/-- The provider-fetch block of `GenerateSteps`: only custom resources
resolve a provider. -/
def provForGoal (plan : Plan) (goal : Goal) : Except String (Option PlanProvider) :=
  if goal.custom then
    match sgProvider plan goal.type with
    | Except.error e => Except.error e
    | Except.ok p => Except.ok (Option.some p)
  else Except.ok Option.none

/-- The result of one `GenerateSteps` call: the updated generator state,
the emitted steps (empty on error), the hard error if any, and the
diagnostics emitted along the way. -/
structure GenResult where
  state : StepGenState
  steps : List Step
  err : Option String
  diags : List String
  deriving Repr

/-- The delete-before-replace cascade loop of `GenerateSteps`, iterating
the dependents in reverse dependency order while threading the deletes
set. Faithful to the source: the skip guard reads `sg.deletes[urn]` — the
URN of the resource being replaced — not the dependent's URN. -/
def dbrLoop (urnOuter : URN) : List ResState → List URN → List Step × List URN
  | [], dels => ([], dels)
  | d :: rest, dels =>
      if urnOuter ∈ dels then dbrLoop urnOuter rest dels
      else
        let r := dbrLoop urnOuter rest (insertURN d.urn dels)
        (Step.deleteReplacement d false :: r.1, r.2)

/-- The default-recomputation re-Check of the replacement path (a failure
here aborts the whole plan). Returns the new state with rechecked inputs,
or the hard error together with the diagnostics it emitted. -/
def recheck (plan : Plan) (goal : Goal) (urn : URN) (prov : Option PlanProvider)
    (refresh allowUnknowns : Bool) (new1 : ResState) :
    Except (String × List String) ResState :=
  match prov, refresh with
  | Option.some p, false =>
      let c := p.check urn Option.none goal.properties allowUnknowns
      match c.2.2 with
      | Option.some e => Except.error (e, [])
      | Option.none =>
          let ie := issueCheckErrors new1 urn c.2.1
          if ie.1 then
            Except.error
              ("One or more resource validation errors occurred; refusing to proceed", ie.2)
          else Except.ok { new1 with inputs := c.1 }
  | _, _ => Except.ok new1

/-- The dispatch on the diff result inside the has-old branch of
`GenerateSteps`: a change indicator other than None or Some is the fatal
"unrecognized diff state" error; Some with replacement splits on
delete-before-replace; Some without replacement is an update; None is a
same. -/
def dispatchDiff (plan : Plan) (sg : StepGenState) (goal : Goal) (urn : URN)
    (old new1 : ResState) (prov : Option PlanProvider) (refresh allowUnknowns : Bool)
    (diags : List String) (d : DiffResult) : GenResult :=
  if d.changes ≠ diffNone ∧ d.changes ≠ diffSome then
    ⟨sg, [],
      Option.some ("unrecognized diff state for " ++ urn.render ++ ": " ++ toString d.changes),
      diags⟩
  else if d.changes = diffSome then
    if d.Replace then
      let sg1 := { sg with replaces := insertURN urn sg.replaces }
      match recheck plan goal urn prov refresh allowUnknowns new1 with
      | Except.error ed => ⟨sg1, [], Option.some ed.1, diags ++ ed.2⟩
      | Except.ok new2 =>
          if d.deleteBeforeReplace then
            let r := dbrLoop urn (plan.dependingOn old).reverse sg1.deletes
            ⟨{ sg1 with deletes := r.2 },
              r.1 ++ [Step.deleteReplacement old false,
                Step.replace old new2 d.replaceKeys false,
                Step.createReplacement old new2 d.replaceKeys false],
              Option.none, diags⟩
          else
            ⟨sg1,
              [Step.createReplacement old new2 d.replaceKeys true,
                Step.replace old new2 d.replaceKeys true],
              Option.none, diags⟩
    else
      ⟨{ sg with updates := insertURN urn sg.updates },
        [Step.update old new1 d.stableKeys], Option.none, diags⟩
  else
    ⟨{ sg with sames := insertURN urn sg.sames }, [Step.same old new1], Option.none, diags⟩

/-- The has-old branch of `GenerateSteps`: compute the diff and dispatch
on it. -/
def dispatchOld (plan : Plan) (sg : StepGenState) (goal : Goal) (urn : URN)
    (old new1 : ResState) (prov : Option PlanProvider) (refresh allowUnknowns : Bool)
    (props inputs : PropertyMap) (diags : List String) : GenResult :=
  match sgDiff urn old.id old.inputs old.outputs inputs new1.outputs props prov refresh
      allowUnknowns with
  | Except.error e => ⟨sg, [], Option.some e, diags⟩
  | Except.ok d =>
      dispatchDiff plan sg goal urn old new1 prov refresh allowUnknowns diags d

/-- `stepGenerator.GenerateSteps` for one registration event (the event's
goal): duplicate detection, old-state lookup, property-state derivation,
provider resolution, Check, analyzers, validity gate, then the
recreating / has-old / create dispatch. Faithful to the source: the
generated URN is never inserted into `sg.urns`, and contract assertions
are modelled as distinguished errors. -/
def GenerateSteps (plan : Plan) (host : StepHost) (sg : StepGenState) (goal : Goal) :
    GenResult :=
  let urn := generateURN plan goal
  let dup : Bool := decide (urn ∈ sg.urns)
  let diags0 : List String := if dup then [dupURNDiag urn] else []
  let oldOpt := lookupState plan.olds urn
  let gps := getResourcePropertyStates plan urn goal
  match provForGoal plan goal with
  | Except.error e => ⟨sg, [], Option.some e, diags0⟩
  | Except.ok prov =>
    let refresh := plan.isRefresh
    let allowUnknowns := plan.preview && !refresh
    let recreating : Bool := decide (urn ∈ sg.deletes)
    let checkRes : Except String (PropertyMap × PropertyMap × ResState × Bool × List String) :=
      match prov, refresh with
      | Option.some p, false =>
          let c :=
            if recreating then p.check urn Option.none goal.properties allowUnknowns
            else p.check urn (oldOpt.map ResState.inputs) gps.2.1 allowUnknowns
          match c.2.2 with
          | Option.some e => Except.error e
          | Option.none =>
              let ie := issueCheckErrors gps.2.2.2 urn c.2.1
              Except.ok (c.1, c.1, { gps.2.2.2 with inputs := c.1 }, ie.1, ie.2)
      | _, _ => Except.ok (gps.1, gps.2.1, gps.2.2.2, false, [])
    match checkRes with
    | Except.error e => ⟨sg, [], Option.some e, diags0⟩
    | Except.ok cr =>
      let props := cr.1
      let inputs := cr.2.1
      let new1 := cr.2.2.1
      let invalidC := cr.2.2.2.1
      let diagsC := cr.2.2.2.2
      match runAnalyzers host urn new1.type props plan.analyzers with
      | Except.error e => ⟨sg, [], Option.some e, diags0 ++ diagsC⟩
      | Except.ok ar =>
        let diags := diags0 ++ diagsC ++ ar.2
        if dup || invalidC || ar.1 then
          ⟨sg, [],
            Option.some "One or more resource validation errors occurred; refusing to proceed",
            diags⟩
        else
          match recreating, oldOpt with
          | true, Option.none =>
              ⟨sg, [], Option.some "contract violation: recreating implies hasOld", diags⟩
          | true, Option.some old =>
              if refresh then
                ⟨sg, [], Option.some "contract violation: refresh cannot recreate", diags⟩
              else
                ⟨{ sg with deletes := removeURN urn sg.deletes
                           replaces := insertURN urn sg.replaces },
                  [Step.replace old new1 [] false,
                    Step.createReplacement old new1 [] false],
                  Option.none, diags⟩
          | false, Option.some old =>
              if old.type = new1.type then
                dispatchOld plan sg goal urn old new1 prov refresh allowUnknowns props inputs
                  diags
              else
                ⟨sg, [], Option.some "contract violation: old and new type differ", diags⟩
          | false, Option.none =>
              ⟨{ sg with creates := insertURN urn sg.creates }, [Step.create new1],
                Option.none, diags⟩

/-- The reverse walk of `GenerateDeletes`, threading the deletes set:
pending-delete resources get an "already pending" delete-replacement step
(tolerating, with only a log, that they may already be marked deleted);
unclassified resources get an ordinary delete step. -/
def genDeletesLoop : StepGenState → List ResState → List Step × StepGenState
  | sg, [] => ([], sg)
  | sg, res :: rest =>
      if res.delete then
        let r := genDeletesLoop { sg with deletes := insertURN res.urn sg.deletes } rest
        (Step.deleteReplacement res true :: r.1, r.2)
      else if res.urn ∉ sg.sames ∧ res.urn ∉ sg.updates ∧ res.urn ∉ sg.replaces ∧
          res.urn ∉ sg.deletes then
        let r := genDeletesLoop { sg with deletes := insertURN res.urn sg.deletes } rest
        (Step.delete res :: r.1, r.2)
      else genDeletesLoop sg rest

/-- `stepGenerator.GenerateDeletes`: walk the previous snapshot's
resources back-to-front (a nil previous snapshot yields no steps). -/
def GenerateDeletes (plan : Plan) (sg : StepGenState) : List Step × StepGenState :=
  match plan.prevResources with
  | Option.none => ([], sg)
  | Option.some resources => genDeletesLoop sg resources.reverse

/-- A load request that succeeds: it carries configuration and
`loadProvider` returns neither failures nor an error for it. -/
def loadSucceeds (host : Host) (req : LoadRequest) : Prop :=
  ∃ p, req.properties = Option.some p ∧
    (loadProvider host req.urn p req.allowUnknowns).failures = [] ∧
    (loadProvider host req.urn p req.allowUnknowns).err = Option.none

theorem lookupTable_insert_self (t : ProviderTable) (u : URN) (r : ProviderRecord) :
    lookupTable (insertTable t u r) u = Option.some r := by
  simp [insertTable, lookupTable]

theorem lookupTable_insert_ne (t : ProviderTable) (u v : URN) (r : ProviderRecord)
    (h : u ≠ v) : lookupTable (insertTable t u r) v = lookupTable t v := by
  simp [insertTable, lookupTable, h]

theorem serveStep_lookup_none (host : Host) (t : ProviderTable) (u : URN) (au : Bool)
    (h : lookupTable t u = Option.none) :
    serveStep host t ⟨u, Option.none, au⟩ =
      Option.some (t, ⟨Option.none, [], Option.some errMissingProvider⟩) := by
  simp [serveStep, h]

theorem serveStep_lookup_some (host : Host) (t : ProviderTable) (u : URN) (au : Bool)
    (rec : ProviderRecord) (h : lookupTable t u = Option.some rec) :
    serveStep host t ⟨u, Option.none, au⟩ =
      Option.some (t, ⟨rec.provider, [], Option.none⟩) := by
  simp [serveStep, h]

theorem serveStep_load_assert (host : Host) (t : ProviderTable) (u : URN)
    (props : PropertyMap) (au : Bool) (rec : ProviderRecord)
    (h : lookupTable t u = Option.some rec) :
    serveStep host t ⟨u, Option.some props, au⟩ = Option.none := by
  simp [serveStep, h]

theorem serveStep_load_success (host : Host) (t : ProviderTable) (u : URN)
    (props : PropertyMap) (au : Bool) (h : lookupTable t u = Option.none)
    (hok : (loadProvider host u props au).failures = [] ∧
      (loadProvider host u props au).err = Option.none) :
    serveStep host t ⟨u, Option.some props, au⟩ =
      Option.some (insertTable t u ⟨props, (loadProvider host u props au).provider⟩,
        loadProvider host u props au) := by
  simp [serveStep, h, hok.1, hok.2]

theorem serveStep_load_failure (host : Host) (t : ProviderTable) (u : URN)
    (props : PropertyMap) (au : Bool) (h : lookupTable t u = Option.none)
    (hfail : ¬((loadProvider host u props au).failures = [] ∧
      (loadProvider host u props au).err = Option.none)) :
    serveStep host t ⟨u, Option.some props, au⟩ =
      Option.some (t, loadProvider host u props au) := by
  simp only [serveStep, h]
  rw [if_neg hfail]

theorem serveStep_load_inv (host : Host) (t t' : ProviderTable) (u : URN)
    (props : PropertyMap) (au : Bool) (resp : LoadResult)
    (hs : serveStep host t ⟨u, Option.some props, au⟩ = Option.some (t', resp)) :
    lookupTable t u = Option.none ∧ resp = loadProvider host u props au ∧
      ((resp.failures = [] ∧ resp.err = Option.none ∧
          t' = insertTable t u ⟨props, resp.provider⟩) ∨
        (¬(resp.failures = [] ∧ resp.err = Option.none) ∧ t' = t)) := by
  cases hlk : lookupTable t u with
  | some rec =>
      rw [serveStep_load_assert host t u props au rec hlk] at hs
      cases hs
  | none =>
      by_cases hok : (loadProvider host u props au).failures = [] ∧
        (loadProvider host u props au).err = Option.none
      · rw [serveStep_load_success host t u props au hlk hok] at hs
        have hpair : (insertTable t u ⟨props, (loadProvider host u props au).provider⟩ = t' ∧
            loadProvider host u props au = resp) := by
          simpa using hs
        refine ⟨rfl, hpair.2.symm, Or.inl ?_⟩
        rw [← hpair.2]
        exact ⟨hok.1, hok.2, hpair.1.symm⟩
      · rw [serveStep_load_failure host t u props au hlk hok] at hs
        have hpair : (t = t' ∧ loadProvider host u props au = resp) := by
          simpa using hs
        refine ⟨rfl, hpair.2.symm, Or.inr ?_⟩
        rw [← hpair.2]
        exact ⟨hok, hpair.1.symm⟩

theorem serveStep_preserves (host : Host) (t t' : ProviderTable) (req : LoadRequest)
    (resp : LoadResult) (u : URN) (rec : ProviderRecord)
    (hs : serveStep host t req = Option.some (t', resp))
    (hl : lookupTable t u = Option.some rec) :
    lookupTable t' u = Option.some rec := by
  obtain ⟨ru, rp, rau⟩ := req
  cases rp with
  | none =>
      cases hlk : lookupTable t ru with
      | none =>
          rw [serveStep_lookup_none host t ru rau hlk] at hs
          obtain ⟨ht, -⟩ :
              t = t' ∧
                (⟨Option.none, [], Option.some errMissingProvider⟩ : LoadResult) = resp := by
            simpa using hs
          rw [← ht]
          exact hl
      | some rec2 =>
          rw [serveStep_lookup_some host t ru rau rec2 hlk] at hs
          obtain ⟨ht, -⟩ :
              t = t' ∧ (⟨rec2.provider, [], Option.none⟩ : LoadResult) = resp := by
            simpa using hs
          rw [← ht]
          exact hl
  | some props =>
      obtain ⟨hlk, hresp, hcases⟩ := serveStep_load_inv host t t' ru props rau resp hs
      cases hcases with
      | inl hsucc =>
          rw [hsucc.2.2]
          have hne : ru ≠ u := by
            intro h
            rw [h] at hlk
            rw [hlk] at hl
            cases hl
          rw [lookupTable_insert_ne t ru u _ hne]
          exact hl
      | inr hfail =>
          rw [hfail.2]
          exact hl

theorem serveAll_preserves (host : Host) (rs : List LoadRequest) :
    ∀ (t t' : ProviderTable) (u : URN) (rec : ProviderRecord),
      serveAll host t rs = Option.some t' → lookupTable t u = Option.some rec →
      lookupTable t' u = Option.some rec := by
  induction rs with
  | nil =>
      intro t t' u rec hall hl
      simp only [serveAll, Option.some.injEq] at hall
      rw [← hall]
      exact hl
  | cons req rest ih =>
      intro t t' u rec hall hl
      simp only [serveAll] at hall
      cases hstep : serveStep host t req with
      | none => rw [hstep] at hall; cases hall
      | some pr =>
          rw [hstep] at hall
          exact ih pr.1 t' u rec hall (serveStep_preserves host t pr.1 req pr.2 u rec
            (by rw [hstep]) hl)

theorem serveStep_absent (host : Host) (t t' : ProviderTable) (req : LoadRequest)
    (resp : LoadResult) (u : URN)
    (hs : serveStep host t req = Option.some (t', resp))
    (hl : lookupTable t u = Option.none)
    (hns : req.urn = u → ¬loadSucceeds host req) :
    lookupTable t' u = Option.none := by
  obtain ⟨ru, rp, rau⟩ := req
  cases rp with
  | none =>
      cases hlk : lookupTable t ru with
      | none =>
          rw [serveStep_lookup_none host t ru rau hlk] at hs
          obtain ⟨ht, -⟩ :
              t = t' ∧
                (⟨Option.none, [], Option.some errMissingProvider⟩ : LoadResult) = resp := by
            simpa using hs
          rw [← ht]
          exact hl
      | some rec2 =>
          rw [serveStep_lookup_some host t ru rau rec2 hlk] at hs
          obtain ⟨ht, -⟩ :
              t = t' ∧ (⟨rec2.provider, [], Option.none⟩ : LoadResult) = resp := by
            simpa using hs
          rw [← ht]
          exact hl
  | some props =>
      obtain ⟨hlk, hresp, hcases⟩ := serveStep_load_inv host t t' ru props rau resp hs
      cases hcases with
      | inl hsucc =>
          by_cases hne : ru = u
          · exfalso
            exact hns hne ⟨props, rfl, hresp ▸ hsucc.1, hresp ▸ hsucc.2.1⟩
          · rw [hsucc.2.2, lookupTable_insert_ne t ru u _ hne]
            exact hl
      | inr hfail =>
          rw [hfail.2]
          exact hl

theorem serveAll_absent (host : Host) (rs : List LoadRequest) :
    ∀ (t t' : ProviderTable) (u : URN),
      serveAll host t rs = Option.some t' → lookupTable t u = Option.none →
      (∀ req ∈ rs, req.urn = u → ¬loadSucceeds host req) →
      lookupTable t' u = Option.none := by
  induction rs with
  | nil =>
      intro t t' u hall hl _
      simp only [serveAll, Option.some.injEq] at hall
      rw [← hall]
      exact hl
  | cons req rest ih =>
      intro t t' u hall hl hns
      simp only [serveAll] at hall
      cases hstep : serveStep host t req with
      | none => rw [hstep] at hall; cases hall
      | some pr =>
          rw [hstep] at hall
          exact ih pr.1 t' u hall
            (serveStep_absent host t pr.1 req pr.2 u (by rw [hstep]) hl
              (hns req (List.mem_cons_self req rest)))
            (fun r hr => hns r (List.mem_cons_of_mem req hr))

/-- C10: a load request that does not succeed — validation failures or a
hard error — leaves the handle table unchanged, so a subsequent lookup for
that URN with no configuration still fails with the `NotFound`
("provider not found") error. -/
theorem C10_failed_load_leaves_table_unchanged (host : Host) (t t' : ProviderTable)
    (u : URN) (props : PropertyMap) (au : Bool) (resp : LoadResult)
    (hs : serveStep host t ⟨u, Option.some props, au⟩ = Option.some (t', resp))
    (hfail : resp.failures ≠ [] ∨ resp.err ≠ Option.none) :
    t' = t ∧ lookupTable t' u = Option.none ∧
      ∀ (host2 : Host) (au2 : Bool),
        serveStep host2 t' ⟨u, Option.none, au2⟩ =
          Option.some (t', ⟨Option.none, [], Option.some errMissingProvider⟩) := by
  obtain ⟨hlk, _, hcases⟩ := serveStep_load_inv host t t' u props au resp hs
  have ht : t' = t := by
    cases hcases with
    | inl hsucc =>
        exfalso
        cases hfail with
        | inl h => exact h hsucc.1
        | inr h => exact h hsucc.2.1
    | inr hf => exact hf.2
  subst ht
  exact ⟨rfl, hlk, fun host2 au2 => serveStep_lookup_none host2 t' u au2 hlk⟩

/-- C10 witness: a load whose configuration holds a non-string value fails
validation and caches nothing; the follow-up lookup is `NotFound`. -/
theorem C10_failed_load_leaves_table_unchanged_witness :
    ([] : ProviderTable) = [] ∧
      lookupTable ([] : ProviderTable) ⟨"s", "p", "", "pulumi:providers:aws", "r"⟩ =
        Option.none ∧
      ∀ (host2 : Host) (au2 : Bool),
        serveStep host2 [] ⟨⟨"s", "p", "", "pulumi:providers:aws", "r"⟩, Option.none, au2⟩ =
          Option.some ([], ⟨Option.none, [], Option.some errMissingProvider⟩) :=
  C10_failed_load_leaves_table_unchanged
    ⟨fun _ _ => Except.error "no plugin"⟩ [] []
    ⟨"s", "p", "", "pulumi:providers:aws", "r"⟩
    [("k", PropertyValue.num 3)] false
    ⟨Option.none, [⟨"k", "provider property values must be strings"⟩], Option.none⟩
    (by rfl)
    (Or.inl (by simp))

/-- C3: after a load with configuration succeeds for URN `U`, every
subsequent lookup for `U` with no configuration — after any further
successfully served requests, and regardless of which host the lookup is
served against (so without invoking the host or `Configure` again) —
returns the identical cached provider handle; and a lookup against a
registry in which no load for `U` ever succeeded fails with the `NotFound`
("provider not found") error. -/
theorem C3_cached_handle_and_notfound (host : Host) (t t1 : ProviderTable) (u : URN)
    (props : PropertyMap) (au : Bool) (resp : LoadResult)
    (hload : serveStep host t ⟨u, Option.some props, au⟩ = Option.some (t1, resp))
    (hok : resp.failures = [] ∧ resp.err = Option.none)
    (rs : List LoadRequest) (host2 : Host) (t2 : ProviderTable)
    (hrest : serveAll host2 t1 rs = Option.some t2)
    (rs' : List LoadRequest) (u' : URN) (t3 : ProviderTable)
    (hall : serveAll host [] rs' = Option.some t3)
    (hns : ∀ req ∈ rs', req.urn = u' → ¬loadSucceeds host req) :
    (∀ (host3 : Host) (au3 : Bool),
        serveStep host3 t2 ⟨u, Option.none, au3⟩ =
          Option.some (t2, ⟨resp.provider, [], Option.none⟩)) ∧
      ∀ (host4 : Host) (au4 : Bool),
        serveStep host4 t3 ⟨u', Option.none, au4⟩ =
          Option.some (t3, ⟨Option.none, [], Option.some errMissingProvider⟩) := by
  obtain ⟨hlk, hresp, hcases⟩ := serveStep_load_inv host t t1 u props au resp hload
  have ht1 : t1 = insertTable t u ⟨props, resp.provider⟩ := by
    cases hcases with
    | inl hsucc => exact hsucc.2.2
    | inr hfail => exact absurd hok hfail.1
  have hcache : lookupTable t1 u = Option.some ⟨props, resp.provider⟩ := by
    rw [ht1]
    exact lookupTable_insert_self t u _
  have hcache2 : lookupTable t2 u = Option.some ⟨props, resp.provider⟩ :=
    serveAll_preserves host2 rs t1 t2 u _ hrest hcache
  have habsent : lookupTable t3 u' = Option.none :=
    serveAll_absent host rs' [] t3 u' hall (by rfl) hns
  exact ⟨fun host3 au3 => serveStep_lookup_some host3 t2 u au3 _ hcache2,
    fun host4 au4 => serveStep_lookup_none host4 t3 u' au4 habsent⟩

/-- C3 witness: one successful concrete load, then a lookup served against
an arbitrary host returns the cached handle; a lookup against the empty
registry is `NotFound`. -/
theorem C3_cached_handle_and_notfound_witness :
    (∀ (host3 : Host) (au3 : Bool),
        serveStep host3
          [(⟨"s", "p", "", "pulumi:providers:aws", "r"⟩,
            ⟨[("k", PropertyValue.str "v")], Option.some (Provider.real 7 "aws")⟩)]
          ⟨⟨"s", "p", "", "pulumi:providers:aws", "r"⟩, Option.none, au3⟩ =
          Option.some
            ([(⟨"s", "p", "", "pulumi:providers:aws", "r"⟩,
                ⟨[("k", PropertyValue.str "v")], Option.some (Provider.real 7 "aws")⟩)],
              ⟨Option.some (Provider.real 7 "aws"), [], Option.none⟩)) ∧
      ∀ (host4 : Host) (au4 : Bool),
        serveStep host4 [] ⟨⟨"s", "p", "", "pulumi:providers:aws", "r"⟩, Option.none, au4⟩ =
          Option.some ([], ⟨Option.none, [], Option.some errMissingProvider⟩) :=
  C3_cached_handle_and_notfound
    ⟨fun _ _ => Except.ok ⟨7, Except.ok ⟨"aws", "1.0"⟩, fun _ => Option.none⟩⟩
    []
    [(⟨"s", "p", "", "pulumi:providers:aws", "r"⟩,
      ⟨[("k", PropertyValue.str "v")], Option.some (Provider.real 7 "aws")⟩)]
    ⟨"s", "p", "", "pulumi:providers:aws", "r"⟩ [("k", PropertyValue.str "v")] false
    ⟨Option.some (Provider.real 7 "aws"), [], Option.none⟩ (by rfl) ⟨rfl, rfl⟩
    [] ⟨fun _ _ => Except.ok ⟨7, Except.ok ⟨"aws", "1.0"⟩, fun _ => Option.none⟩⟩
    [(⟨"s", "p", "", "pulumi:providers:aws", "r"⟩,
      ⟨[("k", PropertyValue.str "v")], Option.some (Provider.real 7 "aws")⟩)]
    (by rfl)
    [] ⟨"s", "p", "", "pulumi:providers:aws", "r"⟩ [] (by rfl)
    (fun req hr => absurd hr (List.not_mem_nil req))

theorem convertConfig_unknown_mem (tn : String) (props : PropertyMap) (k : String)
    (hmem : (k, PropertyValue.computed) ∈ props) (hk : k ≠ "version") :
    (⟨k, "provider properties must not be unknown"⟩ : CheckFailure) ∈
      (convertConfig tn false props).2.2 := by
  induction props with
  | nil => cases hmem
  | cons kv rest ih =>
      obtain ⟨k', v⟩ := kv
      rcases List.mem_cons.mp hmem with h | h
      · obtain ⟨hk', hv⟩ := Prod.mk.injEq .. ▸ h.symm
        subst hk'
        subst hv
        simp only [convertConfig, PropertyValue.IsComputed, if_neg hk]
        exact List.mem_cons_self _ _
      · have ihm := ih h
        simp only [convertConfig]
        by_cases h1 : k' = "version"
        · rw [if_pos h1]; exact ihm
        · rw [if_neg h1]
          cases v with
          | computed => simp only [PropertyValue.IsComputed, if_pos rfl, Bool.false_eq_true,
              if_false]; exact List.mem_cons_of_mem _ ihm
          | str s => exact ihm
          | num n => exact List.mem_cons_of_mem _ ihm
          | boolean b => exact List.mem_cons_of_mem _ ihm

theorem convertConfig_useShim (tn : String) (props : PropertyMap) (k : String)
    (hmem : (k, PropertyValue.computed) ∈ props) (hk : k ≠ "version") :
    (convertConfig tn true props).1 = true := by
  induction props with
  | nil => cases hmem
  | cons kv rest ih =>
      obtain ⟨k', v⟩ := kv
      rcases List.mem_cons.mp hmem with h | h
      · obtain ⟨hk', hv⟩ := Prod.mk.injEq .. ▸ h.symm
        subst hk'
        subst hv
        simp [convertConfig, PropertyValue.IsComputed, if_neg hk]
      · have ihm := ih h
        simp only [convertConfig]
        by_cases h1 : k' = "version"
        · rw [if_pos h1]; exact ihm
        · rw [if_neg h1]
          cases v with
          | computed => simp [PropertyValue.IsComputed]
          | str s => exact ihm
          | num n => exact ihm
          | boolean b => exact ihm

theorem convertConfig_allowed_no_failures (tn : String) (props : PropertyMap)
    (h : ∀ kv ∈ props, kv.1 = "version" ∨ kv.2.IsComputed = true ∨ kv.2.IsString = true) :
    (convertConfig tn true props).2.2 = [] := by
  induction props with
  | nil => rfl
  | cons kv rest ih =>
      obtain ⟨k', v⟩ := kv
      have ihm := ih (fun x hx => h x (List.mem_cons_of_mem _ hx))
      have hh := h (k', v) (List.mem_cons_self _ _)
      simp only [convertConfig]
      by_cases h1 : k' = "version"
      · rw [if_pos h1]; exact ihm
      · rw [if_neg h1]
        rcases hh with h2 | h2 | h2
        · exact absurd h2 h1
        · cases v with
          | computed => simpa using ihm
          | str s => cases h2
          | num n => cases h2
          | boolean b => cases h2
        · cases v with
          | str s => simpa [PropertyValue.IsComputed, PropertyValue.IsString] using ihm
          | computed => simpa using ihm
          | num n => cases h2
          | boolean b => cases h2

/-- C6: a provider configuration containing a computed/unknown non-version
value fails with "provider properties must not be unknown" (no provider,
no hard error) when unknowns are disallowed; when unknowns are allowed and
nothing else fails, it yields a shim provider whose `GetPluginInfo` is
exactly the real plugin's metadata and whose Create/Update/Delete fail
fatally if invoked. -/
theorem C6_unknown_config_shim (host : Host) (urn : URN) (props : PropertyMap)
    (k : String) (hpv : HostProvider) (i : PluginInfo)
    (hmem : (k, PropertyValue.computed) ∈ props) (hk : k ≠ "version")
    (hver : (checkVersion props).1 = [])
    (hall : ∀ kv ∈ props, kv.1 = "version" ∨ kv.2.IsComputed = true ∨ kv.2.IsString = true)
    (hhost : host.provider (typeName urn.type) (checkVersion props).2 = Except.ok hpv)
    (hinfo : hpv.getPluginInfo = Except.ok i) :
    ((loadProvider host urn props false).provider = Option.none ∧
      (loadProvider host urn props false).err = Option.none ∧
      (⟨k, "provider properties must not be unknown"⟩ : CheckFailure) ∈
        (loadProvider host urn props false).failures) ∧
      loadProvider host urn props true =
        ⟨Option.some (Provider.shim ⟨typeName urn.type, i⟩), [], Option.none⟩ ∧
      ShimProvider.GetPluginInfo ⟨typeName urn.type, i⟩ = Except.ok i ∧
      (∀ u2 news, ShimProvider.Create ⟨typeName urn.type, i⟩ u2 news =
        OpResult.fatal "the shimProvider cannot perform CRUD operations") ∧
      (∀ u2 id2 olds news, ShimProvider.Update ⟨typeName urn.type, i⟩ u2 id2 olds news =
        OpResult.fatal "the shimProvider cannot perform CRUD operations") ∧
      (∀ u2 id2 ps, ShimProvider.Delete ⟨typeName urn.type, i⟩ u2 id2 ps =
        OpResult.fatal "the shimProvider cannot perform CRUD operations") := by
  constructor
  · have hcmem := convertConfig_unknown_mem (typeName urn.type) props k hmem hk
    have hne : (checkVersion props).1 ++ (convertConfig (typeName urn.type) false props).2.2 ≠
        [] := by
      intro hcon
      rw [hver, List.nil_append] at hcon
      rw [hcon] at hcmem
      cases hcmem
    have hres : loadProvider host urn props false =
        ⟨Option.none,
          (checkVersion props).1 ++ (convertConfig (typeName urn.type) false props).2.2,
          Option.none⟩ := by
      simp only [loadProvider, if_neg hne]
    rw [hres]
    exact ⟨rfl, rfl, List.mem_append_right _ hcmem⟩
  · have hcc := convertConfig_allowed_no_failures (typeName urn.type) props hall
    have hshim := convertConfig_useShim (typeName urn.type) props k hmem hk
    have hnil : (checkVersion props).1 ++ (convertConfig (typeName urn.type) true props).2.2 =
        [] := by rw [hver, hcc, List.nil_append]
    have hres : loadProvider host urn props true =
        ⟨Option.some (Provider.shim ⟨typeName urn.type, i⟩), [], Option.none⟩ := by
      simp only [loadProvider, if_pos hnil, hshim, hhost, hinfo]
      simp
    exact ⟨hres, rfl, fun u2 news => rfl, fun u2 id2 olds news => rfl,
      fun u2 id2 ps => rfl⟩

/-- C6 witness: a concrete configuration with one unknown value against a
concrete host. -/
theorem C6_unknown_config_shim_witness :
    ((loadProvider ⟨fun _ _ => Except.ok ⟨7, Except.ok ⟨"aws", "1.0"⟩, fun _ => Option.none⟩⟩
        ⟨"s", "p", "", "pulumi:providers:aws", "r"⟩ [("k", PropertyValue.computed)]
        false).provider = Option.none ∧
      (loadProvider ⟨fun _ _ => Except.ok ⟨7, Except.ok ⟨"aws", "1.0"⟩, fun _ => Option.none⟩⟩
        ⟨"s", "p", "", "pulumi:providers:aws", "r"⟩ [("k", PropertyValue.computed)]
        false).err = Option.none ∧
      (⟨"k", "provider properties must not be unknown"⟩ : CheckFailure) ∈
        (loadProvider ⟨fun _ _ => Except.ok ⟨7, Except.ok ⟨"aws", "1.0"⟩, fun _ => Option.none⟩⟩
          ⟨"s", "p", "", "pulumi:providers:aws", "r"⟩ [("k", PropertyValue.computed)]
          false).failures) ∧
      loadProvider ⟨fun _ _ => Except.ok ⟨7, Except.ok ⟨"aws", "1.0"⟩, fun _ => Option.none⟩⟩
        ⟨"s", "p", "", "pulumi:providers:aws", "r"⟩ [("k", PropertyValue.computed)] true =
        ⟨Option.some (Provider.shim ⟨typeName "pulumi:providers:aws", ⟨"aws", "1.0"⟩⟩), [],
          Option.none⟩ ∧
      ShimProvider.GetPluginInfo ⟨typeName "pulumi:providers:aws", ⟨"aws", "1.0"⟩⟩ =
        Except.ok ⟨"aws", "1.0"⟩ ∧
      (∀ u2 news,
        ShimProvider.Create ⟨typeName "pulumi:providers:aws", ⟨"aws", "1.0"⟩⟩ u2 news =
          OpResult.fatal "the shimProvider cannot perform CRUD operations") ∧
      (∀ u2 id2 olds news,
        ShimProvider.Update ⟨typeName "pulumi:providers:aws", ⟨"aws", "1.0"⟩⟩ u2 id2 olds
            news =
          OpResult.fatal "the shimProvider cannot perform CRUD operations") ∧
      ∀ u2 id2 ps,
        ShimProvider.Delete ⟨typeName "pulumi:providers:aws", ⟨"aws", "1.0"⟩⟩ u2 id2 ps =
          OpResult.fatal "the shimProvider cannot perform CRUD operations" :=
  C6_unknown_config_shim
    ⟨fun _ _ => Except.ok ⟨7, Except.ok ⟨"aws", "1.0"⟩, fun _ => Option.none⟩⟩
    ⟨"s", "p", "", "pulumi:providers:aws", "r"⟩ [("k", PropertyValue.computed)] "k"
    ⟨7, Except.ok ⟨"aws", "1.0"⟩, fun _ => Option.none⟩ ⟨"aws", "1.0"⟩
    (List.mem_cons_self _ _) (by decide) (by rfl)
    (by intro kv hkv; rcases List.mem_cons.mp hkv with h | h
        · rw [h]; exact Or.inr (Or.inl rfl)
        · cases h)
    (by rfl) (by rfl)

/-- C7: a `"version"` value `"1.2.3"` parses tolerantly to semantic
version 1.2.3 with no failure; a non-string value yields the
"'version' must be a string" failure; an unparseable string yields a
failure embedding the parse error; in both failure cases the load returns
the failures with no provider and no hard error. -/
theorem C7_version_validation :
    (∀ props : PropertyMap,
        lookupProp props "version" = Option.some (PropertyValue.str "1.2.3") →
        checkVersion props = ([], Option.some ⟨1, 2, 3⟩)) ∧
      (∀ (host : Host) (urn : URN) (props : PropertyMap) (au : Bool) (v : PropertyValue),
        lookupProp props "version" = Option.some v → v.IsString = false →
        (⟨"version", "'version' must be a string"⟩ : CheckFailure) ∈
            (loadProvider host urn props au).failures ∧
          (loadProvider host urn props au).provider = Option.none ∧
          (loadProvider host urn props au).err = Option.none) ∧
      ∀ (host : Host) (urn : URN) (props : PropertyMap) (au : Bool) (s e : String),
        lookupProp props "version" = Option.some (PropertyValue.str s) →
        parseTolerant s = Except.error e →
        (⟨"version", "could not parse provider version: " ++ e⟩ : CheckFailure) ∈
            (loadProvider host urn props au).failures ∧
          (loadProvider host urn props au).provider = Option.none ∧
          (loadProvider host urn props au).err = Option.none := by
  refine ⟨?_, ?_, ?_⟩
  · intro props h
    simp only [checkVersion, h]
    rfl
  · intro host urn props au v h hns
    have hcv : (checkVersion props).1 = [⟨"version", "'version' must be a string"⟩] := by
      cases v with
      | str s => simp [PropertyValue.IsString] at hns
      | num n => simp [checkVersion, h]
      | boolean b => simp [checkVersion, h]
      | computed => simp [checkVersion, h]
    have hmem : (⟨"version", "'version' must be a string"⟩ : CheckFailure) ∈
        (checkVersion props).1 ++ (convertConfig (typeName urn.type) au props).2.2 := by
      rw [hcv]
      exact List.mem_append_left _ (List.mem_cons_self _ _)
    have hne : (checkVersion props).1 ++ (convertConfig (typeName urn.type) au props).2.2 ≠
        [] := List.ne_nil_of_mem hmem
    have hres : loadProvider host urn props au =
        ⟨Option.none,
          (checkVersion props).1 ++ (convertConfig (typeName urn.type) au props).2.2,
          Option.none⟩ := by
      simp only [loadProvider, if_neg hne]
    rw [hres]
    exact ⟨hmem, rfl, rfl⟩
  · intro host urn props au s e h hpe
    have hcv : (checkVersion props).1 =
        [⟨"version", "could not parse provider version: " ++ e⟩] := by
      simp [checkVersion, h, hpe]
    have hmem : (⟨"version", "could not parse provider version: " ++ e⟩ : CheckFailure) ∈
        (checkVersion props).1 ++ (convertConfig (typeName urn.type) au props).2.2 := by
      rw [hcv]
      exact List.mem_append_left _ (List.mem_cons_self _ _)
    have hne : (checkVersion props).1 ++ (convertConfig (typeName urn.type) au props).2.2 ≠
        [] := List.ne_nil_of_mem hmem
    have hres : loadProvider host urn props au =
        ⟨Option.none,
          (checkVersion props).1 ++ (convertConfig (typeName urn.type) au props).2.2,
          Option.none⟩ := by
      simp only [loadProvider, if_neg hne]
    rw [hres]
    exact ⟨hmem, rfl, rfl⟩

/-- C7 witness: concrete version properties — a good version, a numeric
version, and an unparseable version string. -/
theorem C7_version_validation_witness :
    checkVersion [("version", PropertyValue.str "1.2.3")] = ([], Option.some ⟨1, 2, 3⟩) ∧
      ((⟨"version", "'version' must be a string"⟩ : CheckFailure) ∈
          (loadProvider ⟨fun _ _ => Except.error "no plugin"⟩
            ⟨"s", "p", "", "pulumi:providers:aws", "r"⟩
            [("version", PropertyValue.num 1)] false).failures ∧
        (loadProvider ⟨fun _ _ => Except.error "no plugin"⟩
          ⟨"s", "p", "", "pulumi:providers:aws", "r"⟩
          [("version", PropertyValue.num 1)] false).provider = Option.none ∧
        (loadProvider ⟨fun _ _ => Except.error "no plugin"⟩
          ⟨"s", "p", "", "pulumi:providers:aws", "r"⟩
          [("version", PropertyValue.num 1)] false).err = Option.none) ∧
      (⟨"version",
          "could not parse provider version: invalid character in version component abc"⟩ :
          CheckFailure) ∈
        (loadProvider ⟨fun _ _ => Except.error "no plugin"⟩
          ⟨"s", "p", "", "pulumi:providers:aws", "r"⟩
          [("version", PropertyValue.str "abc")] false).failures ∧
      (loadProvider ⟨fun _ _ => Except.error "no plugin"⟩
        ⟨"s", "p", "", "pulumi:providers:aws", "r"⟩
        [("version", PropertyValue.str "abc")] false).provider = Option.none ∧
      (loadProvider ⟨fun _ _ => Except.error "no plugin"⟩
        ⟨"s", "p", "", "pulumi:providers:aws", "r"⟩
        [("version", PropertyValue.str "abc")] false).err = Option.none :=
  ⟨C7_version_validation.1 [("version", PropertyValue.str "1.2.3")] (by rfl),
    C7_version_validation.2.1 ⟨fun _ _ => Except.error "no plugin"⟩
      ⟨"s", "p", "", "pulumi:providers:aws", "r"⟩ [("version", PropertyValue.num 1)] false
      (PropertyValue.num 1) (by rfl) (by rfl),
    C7_version_validation.2.2 ⟨fun _ _ => Except.error "no plugin"⟩
      ⟨"s", "p", "", "pulumi:providers:aws", "r"⟩ [("version", PropertyValue.str "abc")] false
      "abc" "invalid character in version component abc" (by rfl) (by rfl)⟩

/-- A step host whose analyzer lookup is never consulted (all concrete
scenarios below run with no analyzers configured). -/
def trivialStepHost : StepHost := ⟨fun _ => (Option.none, Option.none)⟩

/-- C1 scenario: a non-custom goal registered twice in one plan. -/
def c1Goal : Goal := ⟨"pkg:m:t", "a", false, [], Option.none, false, []⟩

/-- C1 scenario: a plan with no previous snapshot and no analyzers. -/
def c1Plan : Plan :=
  ⟨[], Option.none, false, false, [], fun _ => [], "st", "pr",
    fun _ => (Option.none, Option.none)⟩

/-- C1: registering the same goal twice (both registrations resolve to the
identical URN) does NOT reject the second registration: the first call
leaves the generator's URN set empty (`GenerateSteps` never records the
generated URN in `sg.urns`), and the second call returns no error, records
no diagnostic, and emits a second Create step. -/
theorem C1_duplicate_urn_not_detected :
    (GenerateSteps c1Plan trivialStepHost newStepGenerator c1Goal).err = Option.none ∧
      (GenerateSteps c1Plan trivialStepHost newStepGenerator c1Goal).state.urns = [] ∧
      (GenerateSteps c1Plan trivialStepHost
          (GenerateSteps c1Plan trivialStepHost newStepGenerator c1Goal).state c1Goal).err =
        Option.none ∧
      (GenerateSteps c1Plan trivialStepHost
          (GenerateSteps c1Plan trivialStepHost newStepGenerator c1Goal).state
          c1Goal).diags = [] ∧
      (GenerateSteps c1Plan trivialStepHost
          (GenerateSteps c1Plan trivialStepHost newStepGenerator c1Goal).state
          c1Goal).steps =
        [Step.create
          (NewState "pkg:m:t" (NewURN "st" "pr" "" "pkg:m:t" "a") false false "" [] []
            Option.none false [] [])] := by
  decide

/-- C2 scenario: URNs of the two delete-before-replace resources and their
shared dependent. -/
def c2uA1 : URN := ⟨"st", "pr", "", "pkg:m:t", "a1"⟩

def c2uA2 : URN := ⟨"st", "pr", "", "pkg:m:t", "a2"⟩

def c2uB : URN := ⟨"st", "pr", "", "pkg:m:t", "b"⟩

/-- C2 scenario: snapshot state of the first replaced resource. -/
def c2A1old : ResState :=
  ⟨"pkg:m:t", c2uA1, true, false, "idA1", [("p", PropertyValue.str "old1")], [], Option.none,
    false, [], []⟩

/-- C2 scenario: snapshot state of the second replaced resource. -/
def c2A2old : ResState :=
  ⟨"pkg:m:t", c2uA2, true, false, "idA2", [("p", PropertyValue.str "old2")], [], Option.none,
    false, [], []⟩

/-- C2 scenario: snapshot state of the resource depending on both. -/
def c2Bold : ResState :=
  ⟨"pkg:m:t", c2uB, true, false, "idB", [("q", PropertyValue.str "x")], [], Option.none,
    false, [c2uA1, c2uA2], []⟩

/-- C2 scenario: a provider whose Check is a pass-through and whose Diff
always requires replacement with delete-before-replace. -/
def c2P : PlanProvider :=
  ⟨fun _ _ news _ => (news, [], Option.none),
    fun _ _ _ _ _ => Except.ok ⟨diffSome, ["p"], [], true⟩⟩

/-- C2 scenario: the plan, whose dependency graph reports the dependent
for both replaced resources. -/
def c2Plan : Plan :=
  ⟨[(c2uA1, c2A1old), (c2uA2, c2A2old), (c2uB, c2Bold)],
    Option.some [c2A1old, c2A2old, c2Bold], false, false, [],
    fun r => if r = c2A1old ∨ r = c2A2old then [c2Bold] else [], "st", "pr",
    fun _ => (Option.some c2P, Option.none)⟩

/-- C2 scenario: the two registrations triggering the cascades. -/
def c2gA1 : Goal :=
  ⟨"pkg:m:t", "a1", true, [("p", PropertyValue.str "new1")], Option.none, false, []⟩

/-- C2 scenario: the second registration. -/
def c2gA2 : Goal :=
  ⟨"pkg:m:t", "a2", true, [("p", PropertyValue.str "new2")], Option.none, false, []⟩

/-- C2 scenario: the new state of the first resource after recheck. -/
def c2newA1 : ResState :=
  ⟨"pkg:m:t", c2uA1, true, false, "", [("p", PropertyValue.str "new1")], [], Option.none,
    false, [], []⟩

/-- C2: the first delete-before-replace cascade orders the dependent's
DeleteReplacement before the replaced resource's DeleteReplacement, then
Replace, then CreateReplacement, and marks the dependent deleted; but the
second cascade for another resource with the same dependent emits a second
DeleteReplacement for the already-deleted dependent — the skip guard reads
the replaced resource's URN instead of the dependent's, so a dependent is
deleted twice across cascades. -/
theorem C2_dependent_deleted_twice :
    (GenerateSteps c2Plan trivialStepHost newStepGenerator c2gA1).steps =
        [Step.deleteReplacement c2Bold false, Step.deleteReplacement c2A1old false,
          Step.replace c2A1old c2newA1 ["p"] false,
          Step.createReplacement c2A1old c2newA1 ["p"] false] ∧
      (GenerateSteps c2Plan trivialStepHost newStepGenerator c2gA1).state.deletes = [c2uB] ∧
      (GenerateSteps c2Plan trivialStepHost
          (GenerateSteps c2Plan trivialStepHost newStepGenerator c2gA1).state c2gA2).err =
        Option.none ∧
      Step.deleteReplacement c2Bold false ∈
        (GenerateSteps c2Plan trivialStepHost
          (GenerateSteps c2Plan trivialStepHost newStepGenerator c2gA1).state c2gA2).steps := by
  decide

/-- C4: the step generator's diff function maps a provider "unknown"
result to "some change" before returning, and any other change-indicator
value (neither None nor Some) reaching the dispatch point makes the
generator return the fatal "unrecognized diff state" planning error with
no steps and no state change. -/
theorem C4_diff_normalized_or_fatal :
    (∀ (urn : URN) (id : String) (oi oo ni no np : PropertyMap) (p : PlanProvider)
        (refresh au : Bool) (d : DiffResult),
        p.diff urn id oo np au = Except.ok d → d.changes = diffUnknown →
        sgHasChanges refresh oi oo ni no = true →
        sgDiff urn id oi oo ni no np (Option.some p) refresh au =
          Except.ok { d with changes := diffSome }) ∧
      ∀ (plan : Plan) (sg : StepGenState) (goal : Goal) (urn : URN) (old new1 : ResState)
        (prov : Option PlanProvider) (refresh au : Bool) (diags : List String)
        (d : DiffResult),
        d.changes ≠ diffNone → d.changes ≠ diffSome →
        (dispatchDiff plan sg goal urn old new1 prov refresh au diags d).err =
            Option.some
              ("unrecognized diff state for " ++ urn.render ++ ": " ++ toString d.changes) ∧
          (dispatchDiff plan sg goal urn old new1 prov refresh au diags d).steps = [] ∧
          (dispatchDiff plan sg goal urn old new1 prov refresh au diags d).state = sg := by
  constructor
  · intro urn id oi oo ni no np p refresh au d hdiff hunk hch
    simp only [sgDiff, hch, if_true, hdiff, if_pos hunk]
  · intro plan sg goal urn old new1 prov refresh au diags d h1 h2
    have hcond : d.changes ≠ diffNone ∧ d.changes ≠ diffSome := ⟨h1, h2⟩
    have hres : dispatchDiff plan sg goal urn old new1 prov refresh au diags d =
        ⟨sg, [],
          Option.some
            ("unrecognized diff state for " ++ urn.render ++ ": " ++ toString d.changes),
          diags⟩ := by
      simp only [dispatchDiff, if_pos hcond]
    rw [hres]
    exact ⟨rfl, rfl, rfl⟩

/-- C4 witness: a provider returning an "unknown" diff result on changed
inputs, and a malformed diff result (change indicator 5) at the dispatch
point. -/
theorem C4_diff_normalized_or_fatal_witness :
    sgDiff c2uA1 "idA1" [("a", PropertyValue.num 1)] [] [] [] []
        (Option.some
          ⟨fun _ _ n _ => (n, [], Option.none),
            fun _ _ _ _ _ => Except.ok ⟨diffUnknown, [], [], false⟩⟩)
        false false =
      Except.ok ⟨diffSome, [], [], false⟩ ∧
      (dispatchDiff c1Plan newStepGenerator c1Goal c2uA1 c2A1old c2A1old Option.none false
            false [] ⟨5, [], [], false⟩).err =
          Option.some
            ("unrecognized diff state for " ++ c2uA1.render ++ ": " ++ toString 5) ∧
        (dispatchDiff c1Plan newStepGenerator c1Goal c2uA1 c2A1old c2A1old Option.none false
          false [] ⟨5, [], [], false⟩).steps = [] ∧
        (dispatchDiff c1Plan newStepGenerator c1Goal c2uA1 c2A1old c2A1old Option.none false
          false [] ⟨5, [], [], false⟩).state = newStepGenerator :=
  ⟨C4_diff_normalized_or_fatal.1 c2uA1 "idA1" [("a", PropertyValue.num 1)] [] [] [] []
      ⟨fun _ _ n _ => (n, [], Option.none),
        fun _ _ _ _ _ => Except.ok ⟨diffUnknown, [], [], false⟩⟩
      false false ⟨diffUnknown, [], [], false⟩ (by rfl) (by rfl) (by decide),
    C4_diff_normalized_or_fatal.2 c1Plan newStepGenerator c1Goal c2uA1 c2A1old c2A1old
      Option.none false false [] ⟨5, [], [], false⟩ (by decide) (by decide)⟩

/-- The ordinary-delete condition of `GenerateDeletes`: not classified
same, updated, replaced or deleted. -/
def unclassified (sg : StepGenState) (r : ResState) : Bool :=
  decide (r.urn ∉ sg.sames ∧ r.urn ∉ sg.updates ∧ r.urn ∉ sg.replaces ∧ r.urn ∉ sg.deletes)

theorem mem_insertURN (u v : URN) (l : List URN) :
    v ∈ insertURN u l ↔ v = u ∨ v ∈ l := by
  simp only [insertURN]
  by_cases h : u ∈ l
  · rw [if_pos h]
    constructor
    · exact Or.inr
    · rintro (rfl | hv)
      · exact h
      · exact hv
  · rw [if_neg h]
    exact List.mem_cons

theorem genDeletesLoop_chars (rs : List ResState) :
    ∀ sg : StepGenState, (∀ r ∈ rs, r.delete = false) →
      (rs.map ResState.urn).Nodup →
      (genDeletesLoop sg rs).1 = (rs.filter (unclassified sg)).map Step.delete := by
  induction rs with
  | nil =>
      intro sg _ _
      rfl
  | cons r rest ih =>
      intro sg hnd hdup
      have hrdel : r.delete = false := hnd r (List.mem_cons_self _ _)
      have hnd' : ∀ x ∈ rest, x.delete = false := fun x hx => hnd x (List.mem_cons_of_mem _ hx)
      have hdup' : (rest.map ResState.urn).Nodup := (List.nodup_cons.mp hdup).2
      have hrnotin : r.urn ∉ rest.map ResState.urn := (List.nodup_cons.mp hdup).1
      by_cases hc : r.urn ∉ sg.sames ∧ r.urn ∉ sg.updates ∧ r.urn ∉ sg.replaces ∧
        r.urn ∉ sg.deletes
      · have hloop : genDeletesLoop sg (r :: rest) =
            (Step.delete r ::
              (genDeletesLoop { sg with deletes := insertURN r.urn sg.deletes } rest).1,
              (genDeletesLoop { sg with deletes := insertURN r.urn sg.deletes } rest).2) := by
          simp only [genDeletesLoop, hrdel, Bool.false_eq_true, if_false, if_pos hc]
        rw [hloop]
        have hfc : List.filter (unclassified { sg with deletes := insertURN r.urn sg.deletes })
            rest = List.filter (unclassified sg) rest := by
          apply List.filter_congr
          intro x hx
          have hne : x.urn ≠ r.urn := by
            intro hcon
            exact hrnotin (hcon ▸ List.mem_map_of_mem ResState.urn hx)
          simp only [unclassified]
          apply decide_eq_decide.mpr
          constructor
          · rintro ⟨h1, h2, h3, h4⟩
            refine ⟨h1, h2, h3, fun hin => h4 ?_⟩
            exact (mem_insertURN r.urn x.urn sg.deletes).mpr (Or.inr hin)
          · rintro ⟨h1, h2, h3, h4⟩
            refine ⟨h1, h2, h3, fun hin => ?_⟩
            rcases (mem_insertURN r.urn x.urn sg.deletes).mp hin with h | h
            · exact hne h
            · exact h4 h
        have hfilter : List.filter (unclassified sg) (r :: rest) =
            r :: List.filter (unclassified sg) rest :=
          List.filter_cons_of_pos (by simp only [unclassified]; exact decide_eq_true hc)
        rw [hfilter, List.map_cons, ih _ hnd' hdup', hfc]
      · have hloop : genDeletesLoop sg (r :: rest) = genDeletesLoop sg rest := by
          simp only [genDeletesLoop, hrdel, Bool.false_eq_true, if_false, if_neg hc]
        have hfilter : List.filter (unclassified sg) (r :: rest) =
            List.filter (unclassified sg) rest :=
          List.filter_cons_of_neg (by simp only [unclassified, decide_eq_true_eq]; exact hc)
        rw [hloop, hfilter, ih _ hnd' hdup']

theorem step_delete_injective : Function.Injective Step.delete := by
  intro a b h
  cases h
  rfl

/-- C5: against a previous snapshot whose resources are URN-distinct and
none pending-delete, `GenerateDeletes` emits exactly the ordinary Delete
steps for the unclassified resources, in the exact reverse of the
snapshot's stored order; a resource `Y` not classified at all receives
exactly one Delete step, and a resource `X` classified under sames
receives none. -/
theorem C5_generate_deletes (plan : Plan) (sg : StepGenState) (resources : List ResState)
    (X Y : ResState)
    (hprev : plan.prevResources = Option.some resources)
    (hdup : (resources.map ResState.urn).Nodup)
    (hnd : ∀ r ∈ resources, r.delete = false)
    (hX : X ∈ resources) (hXs : X.urn ∈ sg.sames)
    (hY : Y ∈ resources) (hY1 : Y.urn ∉ sg.sames) (hY2 : Y.urn ∉ sg.updates)
    (hY3 : Y.urn ∉ sg.replaces) (hY4 : Y.urn ∉ sg.deletes) :
    (GenerateDeletes plan sg).1 =
        (resources.reverse.filter (unclassified sg)).map Step.delete ∧
      (GenerateDeletes plan sg).1.count (Step.delete Y) = 1 ∧
      Step.delete X ∉ (GenerateDeletes plan sg).1 := by
  have hgd : GenerateDeletes plan sg = genDeletesLoop sg resources.reverse := by
    simp only [GenerateDeletes, hprev]
  have hndr : ∀ r ∈ resources.reverse, r.delete = false := fun r hr =>
    hnd r (List.mem_reverse.mp hr)
  have hdupr : (resources.reverse.map ResState.urn).Nodup := by
    rw [List.map_reverse]
    exact List.nodup_reverse.mpr hdup
  have hchars : (GenerateDeletes plan sg).1 =
      (resources.reverse.filter (unclassified sg)).map Step.delete := by
    rw [hgd]
    exact genDeletesLoop_chars resources.reverse sg hndr hdupr
  refine ⟨hchars, ?_, ?_⟩
  · rw [hchars]
    have hfilnodup : (resources.reverse.filter (unclassified sg)).Nodup :=
      List.Nodup.filter _ (List.nodup_reverse.mpr (List.Nodup.of_map ResState.urn hdup))
    have hmapnodup : ((resources.reverse.filter (unclassified sg)).map Step.delete).Nodup :=
      List.Nodup.map step_delete_injective hfilnodup
    have hYmem : Y ∈ resources.reverse.filter (unclassified sg) :=
      List.mem_filter.mpr ⟨List.mem_reverse.mpr hY,
        by simp only [unclassified]; exact decide_eq_true ⟨hY1, hY2, hY3, hY4⟩⟩
    exact List.count_eq_one_of_mem hmapnodup (List.mem_map_of_mem Step.delete hYmem)
  · rw [hchars]
    intro hmem
    obtain ⟨a, ha, hax⟩ := List.mem_map.mp hmem
    have : a = X := step_delete_injective hax
    subst this
    have := (List.mem_filter.mp ha).2
    simp only [unclassified, decide_eq_true_eq] at this
    exact this.1 hXs

/-- C5 witness: a two-resource snapshot where `X` was re-registered as
same and `Y` was dropped — `Y` gets exactly one Delete step. -/
theorem C5_generate_deletes_witness :
    (GenerateDeletes
          ⟨[], Option.some [c2A1old, c2Bold], false, false, [], fun _ => [], "st", "pr",
            fun _ => (Option.none, Option.none)⟩
          ⟨[], [], [], [], [], [c2uA1]⟩).1 =
        (([c2A1old, c2Bold].reverse.filter
            (unclassified ⟨[], [], [], [], [], [c2uA1]⟩)).map Step.delete) ∧
      (GenerateDeletes
          ⟨[], Option.some [c2A1old, c2Bold], false, false, [], fun _ => [], "st", "pr",
            fun _ => (Option.none, Option.none)⟩
          ⟨[], [], [], [], [], [c2uA1]⟩).1.count (Step.delete c2Bold) = 1 ∧
      Step.delete c2A1old ∉
        (GenerateDeletes
          ⟨[], Option.some [c2A1old, c2Bold], false, false, [], fun _ => [], "st", "pr",
            fun _ => (Option.none, Option.none)⟩
          ⟨[], [], [], [], [], [c2uA1]⟩).1 :=
  C5_generate_deletes
    ⟨[], Option.some [c2A1old, c2Bold], false, false, [], fun _ => [], "st", "pr",
      fun _ => (Option.none, Option.none)⟩
    ⟨[], [], [], [], [], [c2uA1]⟩ [c2A1old, c2Bold] c2A1old c2Bold (by rfl) (by decide)
    (by decide) (by decide) (by decide) (by decide) (by decide) (by decide) (by decide)
    (by decide)

/-- C8: a non-refresh registration with old state whose checked inputs are
deeply equal to the previous inputs yields exactly one Same step and
records the URN under sames, with every other disposition set unchanged;
the provider's Diff is never consulted — the result holds for every Diff
behaviour `diffFn` of the provider. -/
theorem C8_same_step_without_diff (plan : Plan) (host : StepHost) (sg : StepGenState)
    (goal : Goal) (old : ResState)
    (checkFn : URN → Option PropertyMap → PropertyMap → Bool →
      PropertyMap × List CheckFailure × Option String)
    (diffFn : URN → String → PropertyMap → PropertyMap → Bool → Except String DiffResult)
    (hrefresh : plan.isRefresh = false)
    (hanalyzers : plan.analyzers = [])
    (hcustom : goal.custom = true)
    (hprov : plan.provider (typePackage goal.type) =
      (Option.some ⟨checkFn, diffFn⟩, Option.none))
    (hold : lookupState plan.olds (generateURN plan goal) = Option.some old)
    (htype : old.type = goal.type)
    (hdup : generateURN plan goal ∉ sg.urns)
    (hrec : generateURN plan goal ∉ sg.deletes)
    (hcheck : checkFn (generateURN plan goal) (Option.some old.inputs) goal.properties
        plan.preview = (old.inputs, [], Option.none)) :
    (GenerateSteps plan host sg goal).err = Option.none ∧
      (GenerateSteps plan host sg goal).steps =
        [Step.same old
          (NewState goal.type (generateURN plan goal) goal.custom false "" old.inputs []
            goal.parent goal.protect goal.dependencies [])] ∧
      (GenerateSteps plan host sg goal).state.sames =
        insertURN (generateURN plan goal) sg.sames ∧
      (GenerateSteps plan host sg goal).state.updates = sg.updates ∧
      (GenerateSteps plan host sg goal).state.creates = sg.creates ∧
      (GenerateSteps plan host sg goal).state.replaces = sg.replaces ∧
      (GenerateSteps plan host sg goal).state.deletes = sg.deletes ∧
      (GenerateSteps plan host sg goal).state.urns = sg.urns := by
  have hres : GenerateSteps plan host sg goal =
      ⟨{ sg with sames := insertURN (generateURN plan goal) sg.sames },
        [Step.same old
          (NewState goal.type (generateURN plan goal) goal.custom false "" old.inputs []
            goal.parent goal.protect goal.dependencies [])],
        Option.none, []⟩ := by
    simp [GenerateSteps, provForGoal, sgProvider, getResourcePropertyStates, runAnalyzers,
      issueCheckErrors, dispatchOld, sgDiff, sgHasChanges, dispatchDiff, NewState, diffNone,
      diffSome, diffUnknown, hcustom, hprov, hold, hrefresh, hanalyzers, hcheck, hrec, hdup,
      htype]
  rw [hres]
  exact ⟨rfl, rfl, rfl, rfl, rfl, rfl, rfl, rfl⟩

/-- C8 scenario: a goal whose properties equal the previous inputs. -/
def c8Goal : Goal :=
  ⟨"pkg:m:t", "a", true, [("p", PropertyValue.str "v")], Option.none, false, []⟩

/-- C8 scenario: the URN both registrations resolve to. -/
def c8Urn : URN := ⟨"st", "pr", "", "pkg:m:t", "a"⟩

/-- C8 scenario: the old state, with inputs equal to the goal's
properties. -/
def c8Old : ResState :=
  ⟨"pkg:m:t", c8Urn, true, false, "id0", [("p", PropertyValue.str "v")], [], Option.none,
    false, [], []⟩

/-- C8 scenario: a pass-through Check. -/
def c8CheckFn (urn : URN) (olds : Option PropertyMap) (news : PropertyMap)
    (allowUnknowns : Bool) : PropertyMap × List CheckFailure × Option String :=
  (news, [], Option.none)

/-- C8 scenario: an arbitrary Diff behaviour (never reached). -/
def c8DiffFn (urn : URN) (id : String) (olds news : PropertyMap) (allowUnknowns : Bool) :
    Except String DiffResult :=
  Except.ok ⟨diffUnknown, [], [], false⟩

/-- C8 scenario: the plan. -/
def c8Plan : Plan :=
  ⟨[(c8Urn, c8Old)], Option.none, false, false, [], fun _ => [], "st", "pr",
    fun _ => (Option.some ⟨c8CheckFn, c8DiffFn⟩, Option.none)⟩

/-- C8 witness: the concrete same-inputs registration yields one Same
step. -/
theorem C8_same_step_without_diff_witness :
    (GenerateSteps c8Plan trivialStepHost newStepGenerator c8Goal).err = Option.none ∧
      (GenerateSteps c8Plan trivialStepHost newStepGenerator c8Goal).steps =
        [Step.same c8Old
          (NewState c8Goal.type (generateURN c8Plan c8Goal) c8Goal.custom false ""
            c8Old.inputs [] c8Goal.parent c8Goal.protect c8Goal.dependencies [])] ∧
      (GenerateSteps c8Plan trivialStepHost newStepGenerator c8Goal).state.sames =
        insertURN (generateURN c8Plan c8Goal) newStepGenerator.sames ∧
      (GenerateSteps c8Plan trivialStepHost newStepGenerator c8Goal).state.updates =
        newStepGenerator.updates ∧
      (GenerateSteps c8Plan trivialStepHost newStepGenerator c8Goal).state.creates =
        newStepGenerator.creates ∧
      (GenerateSteps c8Plan trivialStepHost newStepGenerator c8Goal).state.replaces =
        newStepGenerator.replaces ∧
      (GenerateSteps c8Plan trivialStepHost newStepGenerator c8Goal).state.deletes =
        newStepGenerator.deletes ∧
      (GenerateSteps c8Plan trivialStepHost newStepGenerator c8Goal).state.urns =
        newStepGenerator.urns :=
  C8_same_step_without_diff c8Plan trivialStepHost newStepGenerator c8Goal c8Old c8CheckFn
    c8DiffFn rfl rfl rfl rfl (by rfl) rfl (by decide) (by decide) rfl

/-- C9: a registration with old state whose diff requires replacement
without delete-before-replace yields exactly the two steps
[CreateReplacement, Replace] (in that order, built from the rechecked
inputs), records the URN under replaces, leaves the deletes set (and every
other set) unchanged, and emits no delete step of any kind. -/
theorem C9_create_before_delete_replacement (plan : Plan) (host : StepHost)
    (sg : StepGenState) (goal : Goal) (old : ResState)
    (checkFn : URN → Option PropertyMap → PropertyMap → Bool →
      PropertyMap × List CheckFailure × Option String)
    (diffFn : URN → String → PropertyMap → PropertyMap → Bool → Except String DiffResult)
    (i1 i2 : PropertyMap) (d : DiffResult)
    (hrefresh : plan.isRefresh = false)
    (hanalyzers : plan.analyzers = [])
    (hcustom : goal.custom = true)
    (hprov : plan.provider (typePackage goal.type) =
      (Option.some ⟨checkFn, diffFn⟩, Option.none))
    (hold : lookupState plan.olds (generateURN plan goal) = Option.some old)
    (htype : old.type = goal.type)
    (hdup : generateURN plan goal ∉ sg.urns)
    (hrec : generateURN plan goal ∉ sg.deletes)
    (hcheck : checkFn (generateURN plan goal) (Option.some old.inputs) goal.properties
      plan.preview = (i1, [], Option.none))
    (hne : old.inputs ≠ i1)
    (hdiff : diffFn (generateURN plan goal) old.id old.outputs i1 plan.preview =
      Except.ok d)
    (hsome : d.changes = diffSome)
    (hrep : d.Replace = true)
    (hdbr : d.deleteBeforeReplace = false)
    (hrecheck : checkFn (generateURN plan goal) Option.none goal.properties plan.preview =
      (i2, [], Option.none)) :
    (GenerateSteps plan host sg goal).err = Option.none ∧
      (GenerateSteps plan host sg goal).steps =
        [Step.createReplacement old
            (NewState goal.type (generateURN plan goal) goal.custom false "" i2 []
              goal.parent goal.protect goal.dependencies []) d.replaceKeys true,
          Step.replace old
            (NewState goal.type (generateURN plan goal) goal.custom false "" i2 []
              goal.parent goal.protect goal.dependencies []) d.replaceKeys true] ∧
      (GenerateSteps plan host sg goal).state.replaces =
        insertURN (generateURN plan goal) sg.replaces ∧
      (GenerateSteps plan host sg goal).state.deletes = sg.deletes ∧
      (GenerateSteps plan host sg goal).state.sames = sg.sames ∧
      (GenerateSteps plan host sg goal).state.updates = sg.updates ∧
      (GenerateSteps plan host sg goal).state.creates = sg.creates ∧
      (GenerateSteps plan host sg goal).state.urns = sg.urns ∧
      ∀ r : ResState, Step.delete r ∉ (GenerateSteps plan host sg goal).steps ∧
        ∀ b : Bool, Step.deleteReplacement r b ∉ (GenerateSteps plan host sg goal).steps := by
  have hres : GenerateSteps plan host sg goal =
      ⟨{ sg with replaces := insertURN (generateURN plan goal) sg.replaces },
        [Step.createReplacement old
            (NewState goal.type (generateURN plan goal) goal.custom false "" i2 []
              goal.parent goal.protect goal.dependencies []) d.replaceKeys true,
          Step.replace old
            (NewState goal.type (generateURN plan goal) goal.custom false "" i2 []
              goal.parent goal.protect goal.dependencies []) d.replaceKeys true],
        Option.none, []⟩ := by
    simp [GenerateSteps, provForGoal, sgProvider, getResourcePropertyStates, runAnalyzers,
      issueCheckErrors, dispatchOld, sgDiff, sgHasChanges, dispatchDiff, recheck, NewState,
      diffNone, diffSome, diffUnknown, hcustom, hprov, hold, hrefresh, hanalyzers, hcheck,
      hrec, hdup, htype, hne, hdiff, hsome, hrep, hdbr, hrecheck]
  rw [hres]
  refine ⟨rfl, rfl, rfl, rfl, rfl, rfl, rfl, rfl, ?_⟩
  intro r
  refine ⟨by simp, fun b => by simp⟩

/-- C9 scenario: the goal with changed properties. -/
def c9Goal : Goal :=
  ⟨"pkg:m:t", "a", true, [("p", PropertyValue.str "new")], Option.none, false, []⟩

/-- C9 scenario: the old state with different inputs. -/
def c9Old : ResState :=
  ⟨"pkg:m:t", c8Urn, true, false, "id0", [("p", PropertyValue.str "old")], [], Option.none,
    false, [], []⟩

/-- C9 scenario: a Diff requiring replacement without
delete-before-replace. -/
def c9DiffFn (urn : URN) (id : String) (olds news : PropertyMap) (allowUnknowns : Bool) :
    Except String DiffResult :=
  Except.ok ⟨diffSome, ["p"], [], false⟩

/-- C9 scenario: the plan. -/
def c9Plan : Plan :=
  ⟨[(c8Urn, c9Old)], Option.none, false, false, [], fun _ => [], "st", "pr",
    fun _ => (Option.some ⟨c8CheckFn, c9DiffFn⟩, Option.none)⟩

/-- C9 witness: the concrete replacement registration yields
[CreateReplacement, Replace] and no delete step. -/
theorem C9_create_before_delete_replacement_witness :
    (GenerateSteps c9Plan trivialStepHost newStepGenerator c9Goal).err = Option.none ∧
      (GenerateSteps c9Plan trivialStepHost newStepGenerator c9Goal).steps =
        [Step.createReplacement c9Old
            (NewState c9Goal.type (generateURN c9Plan c9Goal) c9Goal.custom false ""
              [("p", PropertyValue.str "new")] [] c9Goal.parent c9Goal.protect
              c9Goal.dependencies []) ["p"] true,
          Step.replace c9Old
            (NewState c9Goal.type (generateURN c9Plan c9Goal) c9Goal.custom false ""
              [("p", PropertyValue.str "new")] [] c9Goal.parent c9Goal.protect
              c9Goal.dependencies []) ["p"] true] ∧
      (GenerateSteps c9Plan trivialStepHost newStepGenerator c9Goal).state.replaces =
        insertURN (generateURN c9Plan c9Goal) newStepGenerator.replaces ∧
      (GenerateSteps c9Plan trivialStepHost newStepGenerator c9Goal).state.deletes =
        newStepGenerator.deletes ∧
      (GenerateSteps c9Plan trivialStepHost newStepGenerator c9Goal).state.sames =
        newStepGenerator.sames ∧
      (GenerateSteps c9Plan trivialStepHost newStepGenerator c9Goal).state.updates =
        newStepGenerator.updates ∧
      (GenerateSteps c9Plan trivialStepHost newStepGenerator c9Goal).state.creates =
        newStepGenerator.creates ∧
      (GenerateSteps c9Plan trivialStepHost newStepGenerator c9Goal).state.urns =
        newStepGenerator.urns ∧
      ∀ r : ResState,
        Step.delete r ∉ (GenerateSteps c9Plan trivialStepHost newStepGenerator c9Goal).steps ∧
        ∀ b : Bool,
          Step.deleteReplacement r b ∉
            (GenerateSteps c9Plan trivialStepHost newStepGenerator c9Goal).steps :=
  C9_create_before_delete_replacement c9Plan trivialStepHost newStepGenerator c9Goal c9Old
    c8CheckFn c9DiffFn [("p", PropertyValue.str "new")] [("p", PropertyValue.str "new")]
    ⟨diffSome, ["p"], [], false⟩ rfl rfl rfl rfl (by rfl) rfl (by decide) (by decide) rfl
    (by decide) rfl rfl rfl rfl rfl

end Pulumi
